import Mathlib

/-!
Verification of the reconciliation and confirmation engine of the OCR work-report
confirmation page (`src/pages/ConfirmationPage.tsx`).

The page's state and handlers are embedded shallowly: React state becomes explicit
record fields, the async save flow becomes a pure function parameterised by the
outcomes of the two external calls (existence probe and commit), and TypeScript
records become Lean structures.  Field names follow the source, including the
Japanese field names of the OCR result type (written with guillemets).
-/

/-- Per-field confirmation lifecycle tag (`ConfirmationStatus` in `src/types`). -/
inductive ConfirmationStatus
  | pending
  | editing
  | approved
deriving DecidableEq, Repr

/-- One start/end time slot (an element of `時刻リスト`). -/
structure TimeSlot where
  «開始時刻» : String
  «終了時刻» : String
deriving DecidableEq, Repr

/-- Break flags (`休憩`). -/
structure BreakInfo where
  «昼休み» : Bool
  «中休み» : Bool
deriving DecidableEq, Repr

/-- A packaging or machine-operation worker record.  `nameConfirmationStatus` and
`nameError` are optional properties in the source (records created by
`addPackagingRecord` carry neither), hence `Option`. -/
structure WorkerRecord where
  «氏名» : String
  «開始時刻» : String
  «終了時刻» : String
  «時刻リスト» : List TimeSlot
  «休憩» : BreakInfo
  «生産数» : String
  nameConfirmationStatus : Option ConfirmationStatus := none
  nameError : Option String := none
  originalName : Option String := none
deriving DecidableEq, Repr

/-- The work date (`作業日`), modelled structurally instead of as a parsed
`YYYY/MM/DD` string; `new Date(...).getFullYear()`, `.getMonth()+1` and
`.getDate()` correspond to the three fields. -/
structure WorkDate where
  year : Int
  month : Nat
  day : Nat
deriving DecidableEq, Repr

/-- Report header (`ヘッダー`). -/
structure ReportHeader where
  «作業日» : WorkDate
  «商品名» : String
  productConfirmationStatus : Option ConfirmationStatus := none
  productError : Option String := none
deriving DecidableEq, Repr

/-- The root aggregate held in the `editedData` state (`OcrResult`). -/
structure OcrResult where
  «ヘッダー» : ReportHeader
  «包装作業記録» : List WorkerRecord
  «機械操作記録» : List WorkerRecord
deriving DecidableEq, Repr

/-- Master data supplied by `useMasterData`. -/
structure MasterData where
  products : List String
  employees : List String
deriving DecidableEq, Repr

/-- JS `String.prototype.trim`, embedded on the character list (the library's
`String.trim` goes through `Substring` and does not reduce in the kernel). -/
def jsTrim (s : String) : String :=
  String.mk (((s.data.dropWhile Char.isWhitespace).reverse.dropWhile
    Char.isWhitespace).reverse)

/-- First-occurrence deduplication with an explicit seen-set, mirroring JS `Map`
key insertion order in `findDuplicates`. -/
def dedupFirstAux (seen : List String) : List String → List String
  | [] => []
  | n :: rest =>
    if n ∈ seen then dedupFirstAux seen rest
    else n :: dedupFirstAux (n :: seen) rest

/-- Keys of the frequency `Map` built by `findDuplicates`, in insertion order. -/
def dedupFirst (l : List String) : List String := dedupFirstAux [] l

/-- `findDuplicates` (ConfirmationPage.tsx:79-92): counts non-empty,
non-whitespace-only names (`if (name && name.trim())`) and returns those with
count > 1, in `Map` insertion order. -/
def findDuplicates (names : List String) : List String :=
  let valid := names.filter (fun n => !(n = "") && !(jsTrim n = ""))
  (dedupFirst valid).filter (fun n => valid.count n > 1)

/-- Result of `checkForDuplicates` (ConfirmationPage.tsx:95-107). -/
structure DuplicateCheck where
  packaging : List String
  machine : List String
  hasDuplicates : Bool
deriving DecidableEq, Repr

/-- `checkForDuplicates`: runs `findDuplicates` on each list's names
independently. -/
def checkForDuplicates (data : OcrResult) : DuplicateCheck :=
  let packagingNames := data.«包装作業記録».map (·.«氏名»)
  let machineNames := data.«機械操作記録».map (·.«氏名»)
  let duplicatePackaging := findDuplicates packagingNames
  let duplicateMachine := findDuplicates machineNames
  { packaging := duplicatePackaging
    machine := duplicateMachine
    hasDuplicates := duplicatePackaging.length > 0 || duplicateMachine.length > 0 }

/-- Digit-count-driven formatting core of `formatTimeInput`
(ConfirmationPage.tsx:110-124), on the digit characters: JS `slice(0,2)` is
`take 2`, `slice(2)` is `drop 2`, `slice(2,4)` is `(drop 2).take 2`,
`numbersOnly[0]` is `take 1`, `slice(1)` is `drop 1`. -/
def formatTimeDigits (d : List Char) : List Char :=
  if d.length = 0 then []
  else if d.length ≤ 2 then d ++ [':', '0', '0']
  else if d.length = 3 then d.take 1 ++ [':'] ++ d.drop 1
  else if d.length = 4 then d.take 2 ++ [':'] ++ d.drop 2
  else d.take 2 ++ [':'] ++ (d.drop 2).take 2

/-- `formatTimeInput`: `input.replace(/[^\d]/g, '')` keeps exactly the digit
characters, then the digit-count table applies. -/
def formatTimeInput (input : String) : String :=
  String.mk (formatTimeDigits (input.data.filter Char.isDigit))

/-- The 21-day-cycle accounting period computed in `performSave`
(ConfirmationPage.tsx:717-733): day ≤ 20 selects the previous month, with
January wrapping to December of the previous year. -/
def accountingPeriod (wd : WorkDate) : Int × Nat :=
  if wd.day ≤ 20 then
    if wd.month = 1 then (wd.year - 1, 12)
    else (wd.year, wd.month - 1)
  else (wd.year, wd.month)

/-- `hasPendingProduct` check in `handleSave` (ConfirmationPage.tsx:657). -/
def hasPendingProduct (data : OcrResult) : Bool :=
  decide (data.«ヘッダー».productConfirmationStatus = some ConfirmationStatus.pending)

/-- `hasPendingNames` check in `handleSave` (ConfirmationPage.tsx:658-661):
the spread of the two mapped lists followed by `.some(x => x)`. -/
def hasPendingNames (data : OcrResult) : Bool :=
  (data.«包装作業記録».map
      (fun r => decide (r.nameConfirmationStatus = some ConfirmationStatus.pending)) ++
    data.«機械操作記録».map
      (fun r => decide (r.nameConfirmationStatus = some ConfirmationStatus.pending))).any id

/-- `hasEditingItems` check in `handleSave` (ConfirmationPage.tsx:669-673). -/
def hasEditingItems (data : OcrResult) : Bool :=
  (decide (data.«ヘッダー».productConfirmationStatus = some ConfirmationStatus.editing) ::
    (data.«包装作業記録».map
        (fun r => decide (r.nameConfirmationStatus = some ConfirmationStatus.editing)) ++
      data.«機械操作記録».map
        (fun r => decide (r.nameConfirmationStatus = some ConfirmationStatus.editing)))).any id

/-- The confirmation-completeness save-gate: `handleSave` returns before the
duplicate check and any external call exactly when this is `true`. -/
def confirmationGateBlocks (data : OcrResult) : Bool :=
  hasPendingProduct data || hasPendingNames data || hasEditingItems data

/-- Result of `GoogleSheetsService.saveToPersonalSheets`. -/
structure CommitResult where
  failedWorkers : List String
deriving DecidableEq, Repr

/-- The existence-probe result of `GoogleSheetsService.checkExistingData`:
the `workerName -> boolean` mapping as an association list. -/
abbrev ProbeMap := List (String × Bool)

/-- `padStart(2, '0')` on the month number. -/
def pad2 (n : Nat) : String :=
  if n < 10 then "0" ++ toString n else toString n

/-- The missing-sheet message assembled on partial commit failure
(ConfirmationPage.tsx:735). -/
def mkMissingSheetMessage (periodYear : Int) (periodMonth : Nat)
    (failed : List String) : String :=
  "以下の作業者の個人シート（" ++ toString periodYear ++ "年" ++ pad2 periodMonth ++
    "月度）が見つかりませんでした。\nスプレッドシートで個人シートを作成してください。\n\n作業者: " ++
    String.intercalate ", " failed

/-- Substring test used by the catch-branch error classification
(`error.message.includes(...)`). -/
def containsSub (s pat : String) : Bool :=
  decide (pat.data <:+: s.data)

/-- Error classification of the `performSave` catch branch
(ConfirmationPage.tsx:747-758). -/
def classifySaveError (msg : String) : String :=
  if containsSub msg "個人シートがありません" then msg
  else if containsSub msg "認証" then "Google認証に失敗しました。再度お試しください。"
  else if containsSub msg "ネットワーク" then "ネットワークエラーが発生しました。接続を確認してください。"
  else msg

/-- The component state touched by the save flow, plus observation fields for
the external calls (`probeCalled`/`commitCalled`), surfaced `alert`s, console
logs, and navigation. -/
structure SaveSession where
  data : OcrResult
  isSaving : Bool
  alerts : List String
  logs : List String
  probeCalled : Bool
  commitCalled : Bool
  confirmDialogOpen : Bool
  overwritePending : Bool
  duplicateDialogOpen : Bool
  duplicateInfo : Option (List String × List String)
  missingSheetDialogOpen : Bool
  missingSheetMessage : String
  failedWorkers : List String
  navigatedTo : Option String
  successMessage : Option String
deriving DecidableEq, Repr

/-- Component state at the moment `handleSave` is entered. -/
def initialSession (data : OcrResult) : SaveSession :=
  { data := data
    isSaving := false
    alerts := []
    logs := []
    probeCalled := false
    commitCalled := false
    confirmDialogOpen := false
    overwritePending := false
    duplicateDialogOpen := false
    duplicateInfo := none
    missingSheetDialogOpen := false
    missingSheetMessage := ""
    failedWorkers := []
    navigatedTo := none
    successMessage := none }

/-- The inner `performSave` closure (ConfirmationPage.tsx:692-764), with the
outcome of `GoogleSheetsService.saveToPersonalSheets` passed in: `Except.ok`
is a resolved call (possibly with `failedWorkers`), `Except.error` a
rejection whose message is classified.  The `finally` clause clears
`isSaving` on every path. -/
def performSaveStep (s : SaveSession) (commit : Except String CommitResult) :
    SaveSession :=
  let s := { s with isSaving := true, commitCalled := true }
  match commit with
  | Except.ok result =>
    if result.failedWorkers.length > 0 then
      let d := s.data
      let failedPackaging :=
        d.«包装作業記録».filter (fun record => result.failedWorkers.contains record.«氏名»)
      let failedMachine :=
        d.«機械操作記録».filter (fun record => result.failedWorkers.contains record.«氏名»)
      let period := accountingPeriod d.«ヘッダー».«作業日»
      { s with
        failedWorkers := result.failedWorkers
        data := { d with
          «包装作業記録» := failedPackaging
          «機械操作記録» := failedMachine }
        missingSheetMessage :=
          mkMissingSheetMessage period.1 period.2 result.failedWorkers
        missingSheetDialogOpen := true
        isSaving := false }
    else
      { s with
        successMessage := some "✅ データを保存しました！"
        navigatedTo := some "/success"
        isSaving := false }
  | Except.error msg =>
    { s with
      logs := s.logs ++ ["保存エラー: " ++ msg]
      alerts := s.alerts ++ [classifySaveError msg]
      isSaving := false }

/-- `handleSave` (ConfirmationPage.tsx:653-794) as a pure function of the
report and the outcomes of the two external calls.  The overwrite-confirmation
path stops with the dialog open and the commit deferred
(`overwritePending`), exactly as the source stores `performSave` in
`overwriteCallback` and returns. -/
def handleSave (data : OcrResult) (probe : Except String ProbeMap)
    (commit : Except String CommitResult) : SaveSession :=
  let s0 := initialSession data
  if hasPendingProduct data || hasPendingNames data then
    { s0 with alerts :=
        ["未確認の項目があります。赤色で表示されている項目の「✓ OK」または「✏️ 修正」ボタンを押して確認してください。"] }
  else if hasEditingItems data then
    { s0 with alerts := ["編集中の項目があります。編集を完了してから保存してください。"] }
  else
    let duplicateCheck := checkForDuplicates data
    if duplicateCheck.hasDuplicates then
      { s0 with
        duplicateInfo := some (duplicateCheck.packaging, duplicateCheck.machine)
        duplicateDialogOpen := true }
    else
      let s1 := { s0 with isSaving := true, probeCalled := true }
      match probe with
      | Except.ok existingDataMap =>
        if (existingDataMap.map Prod.snd).any id then
          let existingWorkers :=
            (existingDataMap.filter (fun p => p.2)).map (fun p => p.1)
          { s1 with
            logs := s1.logs ++
              ["📋 既存データがある作業者: " ++ String.intercalate ", " existingWorkers]
            overwritePending := true
            confirmDialogOpen := true
            isSaving := false }
        else
          performSaveStep s1 commit
      | Except.error e =>
        performSaveStep
          { s1 with logs := s1.logs ++ ["既存データ確認エラー: " ++ e] } commit

/-- Phases of one save attempt, for the `isSaving`-flag trace. -/
inductive SavePhase
  | gate
  | probe
  | awaitOverwrite
  | commit
  | finished
deriving DecidableEq, Repr

/-- The sequence of (phase, `isSaving` value) pairs along one save attempt,
read off the `setIsSaving` calls of `handleSave`/`performSave`: the flag is
raised before the probe (line 766), cleared when the overwrite dialog opens
(line 784), raised again at the head of `performSave` (line 693), and cleared
in its `finally` (line 762).  `userConfirms` resolves the overwrite dialog. -/
def handleSaveTrace (data : OcrResult) (probe : Except String ProbeMap)
    (userConfirms : Bool) : List (SavePhase × Bool) :=
  if confirmationGateBlocks data then [(SavePhase.gate, false)]
  else if (checkForDuplicates data).hasDuplicates then [(SavePhase.gate, false)]
  else
    match probe with
    | Except.ok existingDataMap =>
      if (existingDataMap.map Prod.snd).any id then
        if userConfirms then
          [(SavePhase.probe, true), (SavePhase.awaitOverwrite, false),
            (SavePhase.commit, true), (SavePhase.finished, false)]
        else
          [(SavePhase.probe, true), (SavePhase.awaitOverwrite, false),
            (SavePhase.finished, false)]
      else
        [(SavePhase.probe, true), (SavePhase.commit, true), (SavePhase.finished, false)]
    | Except.error _ =>
      [(SavePhase.probe, true), (SavePhase.commit, true), (SavePhase.finished, false)]

/-- The fresh record built by `addPackagingRecord` /
`addPackagingRecordAtPosition` (ConfirmationPage.tsx:444-451, 461-468): note
it carries neither `nameConfirmationStatus` nor `nameError`. -/
def newPackagingRecord : WorkerRecord :=
  { «氏名» := ""
    «開始時刻» := "8:00"
    «終了時刻» := "17:00"
    «時刻リスト» := [{ «開始時刻» := "8:00", «終了時刻» := "17:00" }]
    «休憩» := { «昼休み» := true, «中休み» := false }
    «生産数» := "0" }

/-- `addPackagingRecord`: prepends the fresh record. -/
def addPackagingRecord (data : OcrResult) : OcrResult :=
  { data with «包装作業記録» := newPackagingRecord :: data.«包装作業記録» }

/-- JS `array.splice(position, 0, x)` insertion (clamps `position` to the
length). -/
def spliceInsert (position : Nat) (x : WorkerRecord) (l : List WorkerRecord) :
    List WorkerRecord :=
  l.take position ++ [x] ++ l.drop position

/-- `addPackagingRecordAtPosition`. -/
def addPackagingRecordAtPosition (position : Nat) (data : OcrResult) : OcrResult :=
  { data with «包装作業記録» := spliceInsert position newPackagingRecord data.«包装作業記録» }

/-- The fresh record built by `addMachineRecord` /
`addMachineRecordAtPosition` (ConfirmationPage.tsx:567-630): a copy of the
first existing record (name blanked) when one exists, defaults otherwise;
either way `nameConfirmationStatus` starts `pending`. -/
def newMachineRecord (data : OcrResult) : WorkerRecord :=
  match data.«機械操作記録» with
  | firstRecord :: _ =>
    { firstRecord with
      «氏名» := ""
      nameConfirmationStatus := some ConfirmationStatus.pending }
  | [] =>
    { «氏名» := ""
      «開始時刻» := "8:00"
      «終了時刻» := "17:00"
      «時刻リスト» := [{ «開始時刻» := "8:00", «終了時刻» := "17:00" }]
      «休憩» := { «昼休み» := false, «中休み» := false }
      «生産数» := "0"
      nameConfirmationStatus := some ConfirmationStatus.pending }

/-- `addMachineRecord`: prepends the fresh record. -/
def addMachineRecord (data : OcrResult) : OcrResult :=
  { data with «機械操作記録» := newMachineRecord data :: data.«機械操作記録» }

/-- `addMachineRecordAtPosition`. -/
def addMachineRecordAtPosition (position : Nat) (data : OcrResult) : OcrResult :=
  { data with
    «機械操作記録» := spliceInsert position (newMachineRecord data) data.«機械操作記録» }

/-- Header half of the master-data reconciliation effect
(ConfirmationPage.tsx:198-206): product name non-empty (JS truthiness),
present in `masterData.products`, and `productError` set. -/
def reconcileHeader (master : MasterData) (h : ReportHeader) : ReportHeader :=
  if !(h.«商品名» = "") && master.products.contains h.«商品名» then
    if h.productError.isSome then
      { h with
        productError := none
        productConfirmationStatus := some ConfirmationStatus.approved }
    else h
  else h

/-- Worker half of the master-data reconciliation effect
(ConfirmationPage.tsx:209-234): name non-empty, present in
`masterData.employees`, and `nameError` set. -/
def reconcileRecord (master : MasterData) (r : WorkerRecord) : WorkerRecord :=
  if !(r.«氏名» = "") && master.employees.contains r.«氏名» && r.nameError.isSome then
    { r with
      nameError := none
      nameConfirmationStatus := some ConfirmationStatus.approved }
  else r

/-- The whole master-data reconciliation effect (ConfirmationPage.tsx:192-239),
run whenever master data loads or changes. -/
def reconcileMasterData (master : MasterData) (data : OcrResult) : OcrResult :=
  { data with
    «ヘッダー» := reconcileHeader master data.«ヘッダー»
    «包装作業記録» := data.«包装作業記録».map (reconcileRecord master)
    «機械操作記録» := data.«機械操作記録».map (reconcileRecord master) }

/-- A clean report used to instantiate the save-flow theorems: all statuses
`approved`, packaging workers Sato and Tanaka (the spec's end-to-end
scenario), no machine records. -/
def sampleWorker (name : String) : WorkerRecord :=
  { newPackagingRecord with
    «氏名» := name
    nameConfirmationStatus := some ConfirmationStatus.approved }

/-- Sample report for witnesses (see `sampleWorker`). -/
def sampleReport : OcrResult :=
  { «ヘッダー» :=
      { «作業日» := { year := 2024, month := 2, day := 21 }
        «商品名» := "WidgetA"
        productConfirmationStatus := some ConfirmationStatus.approved }
    «包装作業記録» := [sampleWorker "Sato", sampleWorker "Tanaka"]
    «機械操作記録» := [] }

/-- Case analysis of `formatTimeDigits` by digit count, with the last two
digits written as `d.drop (d.length - 2)`. -/
theorem formatTimeDigits_cases (d : List Char) :
    (d.length = 0 → formatTimeDigits d = []) ∧
    (1 ≤ d.length → d.length ≤ 2 → formatTimeDigits d = d ++ [':', '0', '0']) ∧
    (d.length = 3 →
      formatTimeDigits d = d.take 1 ++ [':'] ++ d.drop (d.length - 2)) ∧
    (d.length = 4 →
      formatTimeDigits d = d.take 2 ++ [':'] ++ d.drop (d.length - 2)) ∧
    (4 < d.length →
      formatTimeDigits d = d.take 2 ++ [':'] ++ (d.drop 2).take 2) := by
  unfold formatTimeDigits
  refine ⟨fun h => by simp [h], fun h1 h2 => ?_, fun h => by norm_num [h],
    fun h => by norm_num [h], fun h => ?_⟩
  · rw [if_neg (by omega), if_pos h2]
  · rw [if_neg (by omega), if_neg (by omega), if_neg (by omega), if_neg (by omega)]

/-- C6: the accounting period follows the 21-day cycle: day-of-month ≤ 20
selects the previous calendar month (January wraps to December of the
previous year), otherwise the date's own year and month; including the
spec's three example dates. -/
theorem c6_accountingPeriod_spec (wd : WorkDate) :
    (wd.day ≤ 20 → wd.month = 1 → accountingPeriod wd = (wd.year - 1, 12)) ∧
    (wd.day ≤ 20 → wd.month ≠ 1 → accountingPeriod wd = (wd.year, wd.month - 1)) ∧
    (20 < wd.day → accountingPeriod wd = (wd.year, wd.month)) ∧
    accountingPeriod { year := 2024, month := 2, day := 20 } = (2024, 1) ∧
    accountingPeriod { year := 2024, month := 2, day := 21 } = (2024, 2) ∧
    accountingPeriod { year := 2024, month := 1, day := 5 } = (2023, 12) := by
  refine ⟨fun h1 h2 => ?_, fun h1 h2 => ?_, fun h => ?_, by decide, by decide, by decide⟩
  · simp [accountingPeriod, h1, h2]
  · simp [accountingPeriod, h1, h2]
  · simp [accountingPeriod, Nat.not_le.mpr h]

theorem c6_accountingPeriod_spec_witness :
    accountingPeriod { year := 2024, month := 1, day := 15 } = (2023, 12) :=
  (c6_accountingPeriod_spec { year := 2024, month := 1, day := 15 }).1
    (by decide) rfl

/-- C7: `formatTimeInput` strips non-digits and formats purely by digit
count, keeping the digits verbatim (no zero-padding): 0 digits give the
empty string, 1-2 digits gain a `:00` suffix, 3 digits split 1+2, 4 digits
split 2+2, longer inputs truncate after the fourth digit; out-of-range
values are not rejected (`"9999"` becomes `"99:99"`). -/
theorem c7_formatTimeInput_spec (s : String) :
    ((s.data.filter Char.isDigit).length = 0 → formatTimeInput s = "") ∧
    (1 ≤ (s.data.filter Char.isDigit).length →
      (s.data.filter Char.isDigit).length ≤ 2 →
      formatTimeInput s = String.mk (s.data.filter Char.isDigit ++ [':', '0', '0'])) ∧
    ((s.data.filter Char.isDigit).length = 3 →
      formatTimeInput s = String.mk ((s.data.filter Char.isDigit).take 1 ++ [':'] ++
        (s.data.filter Char.isDigit).drop ((s.data.filter Char.isDigit).length - 2))) ∧
    ((s.data.filter Char.isDigit).length = 4 →
      formatTimeInput s = String.mk ((s.data.filter Char.isDigit).take 2 ++ [':'] ++
        (s.data.filter Char.isDigit).drop ((s.data.filter Char.isDigit).length - 2))) ∧
    (4 < (s.data.filter Char.isDigit).length →
      formatTimeInput s = String.mk ((s.data.filter Char.isDigit).take 2 ++ [':'] ++
        ((s.data.filter Char.isDigit).drop 2).take 2)) ∧
    formatTimeInput "8" = "8:00" ∧
    formatTimeInput "17" = "17:00" ∧
    formatTimeInput "830" = "8:30" ∧
    formatTimeInput "1730" = "17:30" ∧
    formatTimeInput "173045" = "17:30" ∧
    formatTimeInput "9999" = "99:99" := by
  obtain ⟨h0, h12, h3, h4, h5⟩ := formatTimeDigits_cases (s.data.filter Char.isDigit)
  refine ⟨fun h => ?_, fun ha hb => ?_, fun h => ?_, fun h => ?_, fun h => ?_,
    by decide, by decide, by decide, by decide, by decide, by decide⟩
  · rw [formatTimeInput, h0 h]
  · rw [formatTimeInput, h12 ha hb]
  · rw [formatTimeInput, h3 h]
  · rw [formatTimeInput, h4 h]
  · rw [formatTimeInput, h5 h]

theorem c7_formatTimeInput_spec_witness :
    1 ≤ (("8" : String).data.filter Char.isDigit).length ∧
    (("8" : String).data.filter Char.isDigit).length ≤ 2 ∧
    formatTimeInput "8" =
      String.mk (("8" : String).data.filter Char.isDigit ++ [':', '0', '0']) :=
  ⟨by decide, by decide,
    (c7_formatTimeInput_spec "8").2.1 (by decide) (by decide)⟩

/-- Refiltering the digits of a formatted output and formatting again
reproduces the output, for digit-only inputs. -/
theorem formatTimeDigits_refilter (d : List Char)
    (h : ∀ c ∈ d, c.isDigit = true) :
    formatTimeDigits ((formatTimeDigits d).filter Char.isDigit) =
      formatTimeDigits d := by
  have hcolon : (':').isDigit = false := by decide
  have hzero : ('0').isDigit = true := by decide
  match d with
  | [] => rfl
  | [a] =>
    have ha := h a (by simp)
    simp [formatTimeDigits, ha, hcolon, hzero]
  | [a, b] =>
    have ha := h a (by simp)
    have hb := h b (by simp)
    simp [formatTimeDigits, ha, hb, hcolon, hzero]
  | [a, b, c] =>
    have ha := h a (by simp)
    have hb := h b (by simp)
    have hc := h c (by simp)
    simp [formatTimeDigits, ha, hb, hc, hcolon]
  | [a, b, c, e] =>
    have ha := h a (by simp)
    have hb := h b (by simp)
    have hc := h c (by simp)
    have he := h e (by simp)
    simp [formatTimeDigits, ha, hb, hc, he, hcolon]
  | a :: b :: c :: e :: g :: rest =>
    have ha := h a (by simp)
    have hb := h b (by simp)
    have hc := h c (by simp)
    have he := h e (by simp)
    simp [formatTimeDigits, ha, hb, hc, he, hcolon]

/-- Membership in the seen-set deduplication. -/
theorem mem_dedupFirstAux (x : String) :
    ∀ (l seen : List String),
      x ∈ dedupFirstAux seen l ↔ x ∈ l ∧ x ∉ seen := by
  intro l
  induction l with
  | nil => intro seen; simp [dedupFirstAux]
  | cons n rest ih =>
    intro seen
    by_cases h : n ∈ seen
    · rw [dedupFirstAux, if_pos h, ih]
      constructor
      · rintro ⟨hx, hs⟩; exact ⟨List.mem_cons_of_mem _ hx, hs⟩
      · rintro ⟨hx, hs⟩
        rcases List.mem_cons.mp hx with rfl | hx
        · exact absurd h hs
        · exact ⟨hx, hs⟩
    · rw [dedupFirstAux, if_neg h]
      simp only [List.mem_cons, ih]
      constructor
      · rintro (rfl | ⟨hx, hs⟩)
        · exact ⟨Or.inl rfl, h⟩
        · exact ⟨Or.inr hx, fun hc => hs (Or.inr hc)⟩
      · rintro ⟨rfl | hx, hs⟩
        · exact Or.inl rfl
        · by_cases hxn : x = n
          · exact Or.inl hxn
          · exact Or.inr ⟨hx, fun hc => hc.elim hxn hs⟩

/-- Membership in the `Map` key list equals membership in the input. -/
theorem mem_dedupFirst (x : String) (l : List String) :
    x ∈ dedupFirst l ↔ x ∈ l := by
  rw [dedupFirst, mem_dedupFirstAux]
  simp

/-- C3: `findDuplicates` returns exactly the names occurring more than once,
with empty and whitespace-only names excluded; the empty list, a list holding
only an empty name, and single-occurrence lists give an empty result; and
`checkForDuplicates` examines the packaging and machine lists independently. -/
theorem c3_findDuplicates_spec :
    (∀ (names : List String) (n : String),
      n ∈ findDuplicates names ↔
        (¬(n = "") ∧ ¬(jsTrim n = "") ∧ 1 < names.count n)) ∧
    findDuplicates [] = [] ∧
    findDuplicates [""] = [] ∧
    (∀ names : List String, (∀ n, names.count n ≤ 1) → findDuplicates names = []) ∧
    (∀ d d' : OcrResult, d.«包装作業記録» = d'.«包装作業記録» →
      (checkForDuplicates d).packaging = (checkForDuplicates d').packaging) ∧
    (∀ d d' : OcrResult, d.«機械操作記録» = d'.«機械操作記録» →
      (checkForDuplicates d).machine = (checkForDuplicates d').machine) := by
  have key : ∀ (names : List String) (n : String),
      n ∈ findDuplicates names ↔
        (¬(n = "") ∧ ¬(jsTrim n = "") ∧ 1 < names.count n) := by
    intro names n
    rw [findDuplicates]
    constructor
    · intro hmem
      rw [List.mem_filter] at hmem
      obtain ⟨hd, hcount⟩ := hmem
      rw [mem_dedupFirst, List.mem_filter] at hd
      obtain ⟨hn, hp⟩ := hd
      simp only [Bool.and_eq_true, Bool.not_eq_true', decide_eq_false_iff_not] at hp
      obtain ⟨h1, h2⟩ := hp
      refine ⟨h1, h2, ?_⟩
      have hcf := List.count_filter
        (p := fun m => !(decide (m = "")) && !(decide (jsTrim m = "")))
        (l := names) (a := n) (by simp [h1, h2])
      simp only [decide_eq_true_eq] at hcount
      rw [hcf] at hcount
      omega
    · rintro ⟨h1, h2, hcount⟩
      have hp : (fun m => !(decide (m = "")) && !(decide (jsTrim m = ""))) n = true := by
        simp [h1, h2]
      have hcf := List.count_filter
        (p := fun m => !(decide (m = "")) && !(decide (jsTrim m = "")))
        (l := names) (a := n) hp
      rw [List.mem_filter]
      have hmemf : n ∈ names.filter
          (fun m => !(decide (m = "")) && !(decide (jsTrim m = ""))) := by
        apply List.count_pos_iff.mp
        rw [hcf]; omega
      refine ⟨(mem_dedupFirst _ _).mpr hmemf, ?_⟩
      simp only [decide_eq_true_eq]
      rw [hcf]; omega
  refine ⟨key, by decide, by decide, fun names h => ?_, fun d d' h => ?_, fun d d' h => ?_⟩
  · by_contra hne
    obtain ⟨n, hn⟩ := List.exists_mem_of_ne_nil _ hne
    have := (key names n).mp hn
    have := h n
    omega
  · simp [checkForDuplicates, h]
  · simp [checkForDuplicates, h]

theorem c3_findDuplicates_spec_witness :
    (("a" : String) ∈ findDuplicates ["a", "a", "b", ""] ↔
      (¬(("a" : String) = "") ∧ ¬(jsTrim "a" = "") ∧
        1 < (["a", "a", "b", ""] : List String).count "a")) ∧
    (∀ n : String, (["x", "y"] : List String).count n ≤ 1) ∧
    findDuplicates ["x", "y"] = [] := by
  refine ⟨c3_findDuplicates_spec.1 ["a", "a", "b", ""] "a", ?_, ?_⟩
  · intro n
    by_cases hx : n = "x" <;> by_cases hy : n = "y" <;>
      simp [List.count_cons, hx, hy]
  · exact c3_findDuplicates_spec.2.2.2.1 ["x", "y"] (fun n => by
      by_cases hx : n = "x" <;> by_cases hy : n = "y" <;>
        simp [List.count_cons, hx, hy])

/-- The firing condition of the per-record reconciliation rule: name
non-empty, present in the employee master set, and an error flag present. -/
def nameMatchesWithError (master : MasterData) (r : WorkerRecord) : Prop :=
  ¬(r.«氏名» = "") ∧ r.«氏名» ∈ master.employees ∧ r.nameError.isSome = true

/-- The firing condition of the header reconciliation rule. -/
def productMatchesWithError (master : MasterData) (h : ReportHeader) : Prop :=
  ¬(h.«商品名» = "") ∧ h.«商品名» ∈ master.products ∧ h.productError.isSome = true

instance (master : MasterData) (r : WorkerRecord) :
    Decidable (nameMatchesWithError master r) := by
  unfold nameMatchesWithError; infer_instance

instance (master : MasterData) (h : ReportHeader) :
    Decidable (productMatchesWithError master h) := by
  unfold productMatchesWithError; infer_instance

/-- When the rule fires, exactly the error flag and the status change. -/
theorem reconcileRecord_eq_of (master : MasterData) (r : WorkerRecord)
    (h : nameMatchesWithError master r) :
    reconcileRecord master r =
      { r with
        nameError := none
        nameConfirmationStatus := some ConfirmationStatus.approved } := by
  obtain ⟨h1, h2, h3⟩ := h
  unfold reconcileRecord
  rw [if_pos (by simp [h1, h2, h3])]

/-- When the rule does not fire, the record is untouched. -/
theorem reconcileRecord_eq_self (master : MasterData) (r : WorkerRecord)
    (h : ¬ nameMatchesWithError master r) :
    reconcileRecord master r = r := by
  unfold reconcileRecord
  rw [if_neg]
  intro hc
  simp only [Bool.and_eq_true, Bool.not_eq_true', decide_eq_false_iff_not] at hc
  exact h ⟨hc.1.1, by simpa using hc.1.2, hc.2⟩

/-- Master data used by the witnesses. -/
def sampleMaster : MasterData :=
  { products := ["WidgetA"], employees := ["Sato"] }

/-- A header whose product name matches master data but still carries an
error flag. -/
def sampleErrorReport : OcrResult :=
  { «ヘッダー» :=
      { «作業日» := { year := 2024, month := 2, day := 21 }
        «商品名» := "WidgetA"
        productConfirmationStatus := some ConfirmationStatus.pending
        productError := some "mismatch" }
    «包装作業記録» := []
    «機械操作記録» := [] }

/-- C2: on every master-data load or change, each field whose current value is
non-empty, present in the master set, and error-flagged comes out with the
error flag absent and status `approved` (its other attributes untouched);
every other field — in particular every already-`approved` or `editing` one —
is left completely unchanged. -/
theorem c2_reconcile_spec (master : MasterData) (data : OcrResult) :
    (productMatchesWithError master data.«ヘッダー» →
      (reconcileMasterData master data).«ヘッダー» =
        { data.«ヘッダー» with
            productError := none
            productConfirmationStatus := some ConfirmationStatus.approved }) ∧
    (¬ productMatchesWithError master data.«ヘッダー» →
      (reconcileMasterData master data).«ヘッダー» = data.«ヘッダー») ∧
    (reconcileMasterData master data).«包装作業記録».length =
      data.«包装作業記録».length ∧
    (reconcileMasterData master data).«機械操作記録».length =
      data.«機械操作記録».length ∧
    (∀ (i : Nat) (h1 : i < data.«包装作業記録».length)
        (h2 : i < (reconcileMasterData master data).«包装作業記録».length),
      (nameMatchesWithError master (data.«包装作業記録».get ⟨i, h1⟩) →
        (reconcileMasterData master data).«包装作業記録».get ⟨i, h2⟩ =
          { data.«包装作業記録».get ⟨i, h1⟩ with
              nameError := none
              nameConfirmationStatus := some ConfirmationStatus.approved }) ∧
      (¬ nameMatchesWithError master (data.«包装作業記録».get ⟨i, h1⟩) →
        (reconcileMasterData master data).«包装作業記録».get ⟨i, h2⟩ =
          data.«包装作業記録».get ⟨i, h1⟩)) ∧
    (∀ (i : Nat) (h1 : i < data.«機械操作記録».length)
        (h2 : i < (reconcileMasterData master data).«機械操作記録».length),
      (nameMatchesWithError master (data.«機械操作記録».get ⟨i, h1⟩) →
        (reconcileMasterData master data).«機械操作記録».get ⟨i, h2⟩ =
          { data.«機械操作記録».get ⟨i, h1⟩ with
              nameError := none
              nameConfirmationStatus := some ConfirmationStatus.approved }) ∧
      (¬ nameMatchesWithError master (data.«機械操作記録».get ⟨i, h1⟩) →
        (reconcileMasterData master data).«機械操作記録».get ⟨i, h2⟩ =
          data.«機械操作記録».get ⟨i, h1⟩)) := by
  refine ⟨fun h => ?_, fun h => ?_, by simp [reconcileMasterData],
    by simp [reconcileMasterData], fun i h1 h2 => ⟨fun h => ?_, fun h => ?_⟩,
    fun i h1 h2 => ⟨fun h => ?_, fun h => ?_⟩⟩
  · obtain ⟨hp1, hp2, hp3⟩ := h
    show reconcileHeader master data.«ヘッダー» = _
    unfold reconcileHeader
    rw [if_pos (by simp [hp1, hp2]), if_pos hp3]
  · show reconcileHeader master data.«ヘッダー» = _
    unfold reconcileHeader
    by_cases hc : (!(decide (data.«ヘッダー».«商品名» = "")) &&
        master.products.contains data.«ヘッダー».«商品名») = true
    · rw [if_pos hc, if_neg]
      intro hp3
      simp only [Bool.and_eq_true, Bool.not_eq_true', decide_eq_false_iff_not] at hc
      exact h ⟨hc.1, by simpa using hc.2, hp3⟩
    · rw [if_neg hc]
  · show (data.«包装作業記録».map (reconcileRecord master)).get ⟨i, h2⟩ = _
    simp only [List.get_eq_getElem, List.getElem_map]
    exact reconcileRecord_eq_of master _ h
  · show (data.«包装作業記録».map (reconcileRecord master)).get ⟨i, h2⟩ = _
    simp only [List.get_eq_getElem, List.getElem_map]
    exact reconcileRecord_eq_self master _ h
  · show (data.«機械操作記録».map (reconcileRecord master)).get ⟨i, h2⟩ = _
    simp only [List.get_eq_getElem, List.getElem_map]
    exact reconcileRecord_eq_of master _ h
  · show (data.«機械操作記録».map (reconcileRecord master)).get ⟨i, h2⟩ = _
    simp only [List.get_eq_getElem, List.getElem_map]
    exact reconcileRecord_eq_self master _ h

theorem c2_reconcile_spec_witness :
    productMatchesWithError sampleMaster sampleErrorReport.«ヘッダー» ∧
    (reconcileMasterData sampleMaster sampleErrorReport).«ヘッダー» =
      { sampleErrorReport.«ヘッダー» with
          productError := none
          productConfirmationStatus := some ConfirmationStatus.approved } := by
  have h := (c2_reconcile_spec sampleMaster sampleErrorReport).1
  exact ⟨by decide, h (by decide)⟩

/-- `any` over a mapped splice-insertion is the inserted element's value or
the original `any`. -/
theorem any_map_spliceInsert (f : WorkerRecord → Bool) (x : WorkerRecord)
    (p : Nat) (l : List WorkerRecord) :
    ((spliceInsert p x l).map f).any id = (f x || (l.map f).any id) := by
  unfold spliceInsert
  simp only [List.map_append, List.any_append, List.map_cons, List.map_nil,
    List.any_cons, List.any_nil, id, Bool.or_false]
  conv_rhs => rw [← List.take_append_drop p l]
  simp only [List.map_append, List.any_append]
  cases hfx : f x <;>
    cases h2 : ((l.take p).map f).any id <;>
      cases h3 : ((l.drop p).map f).any id <;>
        simp [hfx, h2, h3]

/-- C10: packaging records created by `addPackagingRecord` /
`addPackagingRecordAtPosition` carry no `nameConfirmationStatus` (and an empty
name), so adding one never changes whether the confirmation save-gate blocks;
machine records created by `addMachineRecord` / `addMachineRecordAtPosition`
start `pending` and force the gate to block. -/
theorem c10_addRecord_gate (data : OcrResult) (position : Nat) :
    (addPackagingRecord data).«包装作業記録» =
      newPackagingRecord :: data.«包装作業記録» ∧
    newPackagingRecord.nameConfirmationStatus = none ∧
    newPackagingRecord.«氏名» = "" ∧
    (addPackagingRecordAtPosition position data).«包装作業記録» =
      data.«包装作業記録».take position ++ [newPackagingRecord] ++
        data.«包装作業記録».drop position ∧
    confirmationGateBlocks (addPackagingRecord data) =
      confirmationGateBlocks data ∧
    confirmationGateBlocks (addPackagingRecordAtPosition position data) =
      confirmationGateBlocks data ∧
    (newMachineRecord data).nameConfirmationStatus =
      some ConfirmationStatus.pending ∧
    (addMachineRecord data).«機械操作記録» =
      newMachineRecord data :: data.«機械操作記録» ∧
    confirmationGateBlocks (addMachineRecord data) = true ∧
    confirmationGateBlocks (addMachineRecordAtPosition position data) = true := by
  have hst : (newMachineRecord data).nameConfirmationStatus =
      some ConfirmationStatus.pending := by
    cases hm : data.«機械操作記録» <;> simp [newMachineRecord, hm]
  refine ⟨rfl, rfl, rfl, rfl, ?_, ?_, hst, rfl, ?_, ?_⟩
  · simp [confirmationGateBlocks, hasPendingProduct, hasPendingNames,
      hasEditingItems, addPackagingRecord, newPackagingRecord]
  · simp [confirmationGateBlocks, hasPendingProduct, hasPendingNames,
      hasEditingItems, addPackagingRecordAtPosition, any_map_spliceInsert,
      newPackagingRecord]
  · simp [confirmationGateBlocks, hasPendingNames, addMachineRecord, hst]
  · simp [confirmationGateBlocks, hasPendingNames, addMachineRecordAtPosition,
      any_map_spliceInsert, hst]

/-- `performSaveStep` never changes the probe observation. -/
theorem performSaveStep_probeCalled (s : SaveSession)
    (c : Except String CommitResult) :
    (performSaveStep s c).probeCalled = s.probeCalled := by
  unfold performSaveStep
  cases c with
  | ok r => dsimp only; split <;> rfl
  | error m => rfl

/-- C4: when the commit reports a non-empty `failedWorkers` list, both entry
lists are narrowed to exactly the records whose name is among the failed
workers (a sublist, hence in original order), the saving flag returns to
`false`, no navigation happens, and the missing-sheet dialog opens. -/
theorem c4_partial_failure (s : SaveSession) (result : CommitResult)
    (h : result.failedWorkers ≠ []) :
    (performSaveStep s (Except.ok result)).data.«包装作業記録».Sublist
      s.data.«包装作業記録» ∧
    (∀ record : WorkerRecord,
      record ∈ (performSaveStep s (Except.ok result)).data.«包装作業記録» ↔
        (record ∈ s.data.«包装作業記録» ∧
          record.«氏名» ∈ result.failedWorkers)) ∧
    (performSaveStep s (Except.ok result)).data.«機械操作記録».Sublist
      s.data.«機械操作記録» ∧
    (∀ record : WorkerRecord,
      record ∈ (performSaveStep s (Except.ok result)).data.«機械操作記録» ↔
        (record ∈ s.data.«機械操作記録» ∧
          record.«氏名» ∈ result.failedWorkers)) ∧
    (performSaveStep s (Except.ok result)).failedWorkers =
      result.failedWorkers ∧
    (performSaveStep s (Except.ok result)).isSaving = false ∧
    (performSaveStep s (Except.ok result)).navigatedTo = s.navigatedTo ∧
    (performSaveStep s (Except.ok result)).missingSheetDialogOpen = true := by
  have hpos : result.failedWorkers.length > 0 := List.length_pos.mpr h
  unfold performSaveStep
  simp only [if_pos hpos]
  refine ⟨List.filter_sublist _, fun record => ?_, List.filter_sublist _,
    fun record => ?_, trivial, trivial, trivial, trivial⟩ <;>
    simp [List.mem_filter]

theorem c4_partial_failure_witness :
    (({ failedWorkers := ["Tanaka"] } : CommitResult).failedWorkers ≠ []) ∧
    ((performSaveStep (initialSession sampleReport)
        (Except.ok { failedWorkers := ["Tanaka"] })).data.«包装作業記録».Sublist
      (initialSession sampleReport).data.«包装作業記録» ∧
    (∀ record : WorkerRecord,
      record ∈ (performSaveStep (initialSession sampleReport)
          (Except.ok { failedWorkers := ["Tanaka"] })).data.«包装作業記録» ↔
        (record ∈ (initialSession sampleReport).data.«包装作業記録» ∧
          record.«氏名» ∈
            ({ failedWorkers := ["Tanaka"] } : CommitResult).failedWorkers)) ∧
    (performSaveStep (initialSession sampleReport)
        (Except.ok { failedWorkers := ["Tanaka"] })).data.«機械操作記録».Sublist
      (initialSession sampleReport).data.«機械操作記録» ∧
    (∀ record : WorkerRecord,
      record ∈ (performSaveStep (initialSession sampleReport)
          (Except.ok { failedWorkers := ["Tanaka"] })).data.«機械操作記録» ↔
        (record ∈ (initialSession sampleReport).data.«機械操作記録» ∧
          record.«氏名» ∈
            ({ failedWorkers := ["Tanaka"] } : CommitResult).failedWorkers)) ∧
    (performSaveStep (initialSession sampleReport)
        (Except.ok { failedWorkers := ["Tanaka"] })).failedWorkers =
      ({ failedWorkers := ["Tanaka"] } : CommitResult).failedWorkers ∧
    (performSaveStep (initialSession sampleReport)
        (Except.ok { failedWorkers := ["Tanaka"] })).isSaving = false ∧
    (performSaveStep (initialSession sampleReport)
        (Except.ok { failedWorkers := ["Tanaka"] })).navigatedTo =
      (initialSession sampleReport).navigatedTo ∧
    (performSaveStep (initialSession sampleReport)
        (Except.ok { failedWorkers := ["Tanaka"] })).missingSheetDialogOpen =
      true) ∧
    (performSaveStep (initialSession sampleReport)
        (Except.ok { failedWorkers := ["Tanaka"] })).data.«包装作業記録» =
      [sampleWorker "Tanaka"] :=
  ⟨by decide,
    c4_partial_failure (initialSession sampleReport)
      { failedWorkers := ["Tanaka"] } (by decide),
    by decide⟩

/-- `hasPendingNames` holds exactly when some worker in either list is
`pending`. -/
theorem hasPendingNames_iff (data : OcrResult) :
    hasPendingNames data = true ↔
      ∃ r ∈ data.«包装作業記録» ++ data.«機械操作記録»,
        r.nameConfirmationStatus = some ConfirmationStatus.pending := by
  simp [hasPendingNames, List.any_eq_true, List.mem_append]
  aesop

/-- `hasEditingItems` holds exactly when the product field or some worker is
`editing`. -/
theorem hasEditingItems_iff (data : OcrResult) :
    hasEditingItems data = true ↔
      (data.«ヘッダー».productConfirmationStatus = some ConfirmationStatus.editing ∨
        ∃ r ∈ data.«包装作業記録» ++ data.«機械操作記録»,
          r.nameConfirmationStatus = some ConfirmationStatus.editing) := by
  simp [hasEditingItems, List.any_eq_true, List.mem_append]
  aesop

/-- The code's gate booleans are equivalent to the spec-side condition: some
confirmation status among the product field and all worker name fields is
`pending` or `editing`. -/
theorem confirmationGateBlocks_iff (data : OcrResult) :
    confirmationGateBlocks data = true ↔
      (data.«ヘッダー».productConfirmationStatus = some ConfirmationStatus.pending ∨
        data.«ヘッダー».productConfirmationStatus = some ConfirmationStatus.editing ∨
        ∃ r ∈ data.«包装作業記録» ++ data.«機械操作記録»,
          r.nameConfirmationStatus = some ConfirmationStatus.pending ∨
          r.nameConfirmationStatus = some ConfirmationStatus.editing) := by
  rw [confirmationGateBlocks]
  simp only [Bool.or_eq_true, hasPendingNames_iff, hasEditingItems_iff,
    hasPendingProduct, decide_eq_true_eq]
  constructor
  · rintro ((hp | ⟨r, hr, hs⟩) | (he | ⟨r, hr, hs⟩))
    · exact Or.inl hp
    · exact Or.inr (Or.inr ⟨r, hr, Or.inl hs⟩)
    · exact Or.inr (Or.inl he)
    · exact Or.inr (Or.inr ⟨r, hr, Or.inr hs⟩)
  · rintro (hp | he | ⟨r, hr, hs | hs⟩)
    · exact Or.inl (Or.inl hp)
    · exact Or.inr (Or.inl he)
    · exact Or.inl (Or.inr ⟨r, hr, hs⟩)
    · exact Or.inr (Or.inr ⟨r, hr, hs⟩)

/-- C1: `handleSave` surfaces a blocking message and returns before either
external call exactly when some confirmation status among the product field
and all worker name fields (both lists) is `pending` or `editing`; in that
case all component state other than the surfaced message is untouched. -/
theorem c1_save_gate (data : OcrResult) (probe : Except String ProbeMap)
    (commit : Except String CommitResult) :
    (((handleSave data probe commit).probeCalled = false ∧
      (handleSave data probe commit).commitCalled = false ∧
      (handleSave data probe commit).alerts ≠ []) ↔
        (data.«ヘッダー».productConfirmationStatus = some ConfirmationStatus.pending ∨
          data.«ヘッダー».productConfirmationStatus = some ConfirmationStatus.editing ∨
          ∃ r ∈ data.«包装作業記録» ++ data.«機械操作記録»,
            r.nameConfirmationStatus = some ConfirmationStatus.pending ∨
            r.nameConfirmationStatus = some ConfirmationStatus.editing)) ∧
    (confirmationGateBlocks data = true →
      ∃ msg, handleSave data probe commit =
        { initialSession data with alerts := [msg] }) := by
  rw [← confirmationGateBlocks_iff]
  by_cases h1 : (hasPendingProduct data || hasPendingNames data) = true
  · have hb : confirmationGateBlocks data = true := by
      rcases Bool.or_eq_true_iff.mp h1 with h | h <;>
        simp [confirmationGateBlocks, h]
    constructor
    · simp [handleSave, h1, initialSession, hb]
    · intro _
      refine ⟨"未確認の項目があります。赤色で表示されている項目の「✓ OK」または「✏️ 修正」ボタンを押して確認してください。", ?_⟩
      simp [handleSave, h1]
  · have h1f : (hasPendingProduct data || hasPendingNames data) = false :=
      Bool.not_eq_true _ ▸ Bool.of_not_eq_true h1
    by_cases h2 : hasEditingItems data = true
    · have hb : confirmationGateBlocks data = true := by
        simp [confirmationGateBlocks, h2]
      constructor
      · simp [handleSave, h1f, h2, initialSession, hb]
      · intro _
        refine ⟨"編集中の項目があります。編集を完了してから保存してください。", ?_⟩
        simp [handleSave, h1f, h2]
    · have h2f : hasEditingItems data = false := by
        simpa using h2
      have hb : confirmationGateBlocks data = false := by
        rcases Bool.or_eq_false_iff.mp h1f with ⟨ha, hn⟩
        simp [confirmationGateBlocks, Bool.or_eq_false_iff.mp h1f, h2f]
      refine ⟨?_, fun hc => absurd hc (by simp [hb])⟩
      rw [hb]
      simp only [Bool.false_eq_true, iff_false]
      by_cases h3 : (checkForDuplicates data).hasDuplicates = true
      · simp [handleSave, h1f, h2f, h3, initialSession]
      · have h3f : (checkForDuplicates data).hasDuplicates = false := by
          simpa using h3
        cases probe with
        | ok m =>
          by_cases h4 : (m.map Prod.snd).any id = true
          · simp [handleSave, h1f, h2f, h3f, h4, initialSession]
          · have h4f : (m.map Prod.snd).any id = false := by simpa using h4
            simp [handleSave, h1f, h2f, h3f, h4f, initialSession,
              performSaveStep_probeCalled]
        | error e =>
          simp [handleSave, h1f, h2f, h3f, initialSession,
            performSaveStep_probeCalled]

def pendingReport : OcrResult :=
  { sampleReport with
      «ヘッダー» :=
        { sampleReport.«ヘッダー» with
            productConfirmationStatus := some ConfirmationStatus.pending } }

theorem c1_save_gate_witness :
    confirmationGateBlocks pendingReport = true ∧
    (∃ msg, handleSave pendingReport (Except.ok [])
        (Except.ok { failedWorkers := [] }) =
      { initialSession pendingReport with alerts := [msg] }) :=
  ⟨by decide,
    (c1_save_gate pendingReport (Except.ok [])
      (Except.ok { failedWorkers := [] })).2 (by decide)⟩

/-- C5: when the existence probe throws, `handleSave` proceeds straight to
the commit exactly as if no worker had existing data — same final state up to
the console log of the probe error; no overwrite-confirmation dialog, the
commit runs, and the surfaced messages are identical (the probe error itself
is only logged, never alerted). -/
theorem c5_probe_failopen (data : OcrResult) (e : String)
    (commit : Except String CommitResult)
    (hGate : confirmationGateBlocks data = false)
    (hDup : (checkForDuplicates data).hasDuplicates = false) :
    handleSave data (Except.error e) commit =
      { handleSave data (Except.ok []) commit with
          logs := ("既存データ確認エラー: " ++ e) ::
            (handleSave data (Except.ok []) commit).logs } ∧
    (handleSave data (Except.error e) commit).confirmDialogOpen = false ∧
    (handleSave data (Except.error e) commit).commitCalled = true ∧
    (handleSave data (Except.error e) commit).alerts =
      (handleSave data (Except.ok []) commit).alerts := by
  have h3 : (hasPendingProduct data = false ∧ hasPendingNames data = false) ∧
      hasEditingItems data = false := by
    simpa [confirmationGateBlocks] using hGate
  have horf : (hasPendingProduct data || hasPendingNames data) = false := by
    simp [h3.1.1, h3.1.2]
  have hedf : hasEditingItems data = false := h3.2
  simp only [handleSave, horf, Bool.false_eq_true, if_false, hedf, hDup,
    List.map_nil, List.any_nil]
  cases commit with
  | ok r =>
    by_cases hl : r.failedWorkers.length > 0
    · simp [performSaveStep, hl, initialSession]
    · simp [performSaveStep, hl, initialSession]
  | error m =>
    simp [performSaveStep, initialSession]

theorem c5_probe_failopen_witness :
    confirmationGateBlocks sampleReport = false ∧
    (checkForDuplicates sampleReport).hasDuplicates = false ∧
    (handleSave sampleReport (Except.error "network")
        (Except.ok { failedWorkers := [] }) =
      { handleSave sampleReport (Except.ok [])
          (Except.ok { failedWorkers := [] }) with
          logs := ("既存データ確認エラー: " ++ "network") ::
            (handleSave sampleReport (Except.ok [])
              (Except.ok { failedWorkers := [] })).logs } ∧
    (handleSave sampleReport (Except.error "network")
        (Except.ok { failedWorkers := [] })).confirmDialogOpen = false ∧
    (handleSave sampleReport (Except.error "network")
        (Except.ok { failedWorkers := [] })).commitCalled = true ∧
    (handleSave sampleReport (Except.error "network")
        (Except.ok { failedWorkers := [] })).alerts =
      (handleSave sampleReport (Except.ok [])
        (Except.ok { failedWorkers := [] })).alerts) :=
  ⟨by decide, by decide,
    c5_probe_failopen sampleReport "network"
      (Except.ok { failedWorkers := [] }) (by decide) (by decide)⟩

/-- C9 counterexample: the claim that the saving flag stays `true` across the
whole probe + overwrite-confirmation + commit span fails on the code — when
the probe reports existing data, the overwrite dialog is opened with
`setIsSaving(false)` (ConfirmationPage.tsx:784), so the await-overwrite phase
carries `isSaving = false`. -/
theorem c9_counterexample :
    ¬ (∀ s ∈ handleSaveTrace sampleReport (Except.ok [("Tanaka", true)]) true,
        (s.1 = SavePhase.probe ∨ s.1 = SavePhase.awaitOverwrite ∨
          s.1 = SavePhase.commit) → s.2 = true) := by
  intro h
  exact absurd
    (h (SavePhase.awaitOverwrite, false) (by decide) (by decide))
    (by decide)

/-- C9 (amended): along every save attempt the saving flag is `true`
throughout the probe and commit phases, but it is `false` while the
overwrite-confirmation dialog awaits the user's decision, and `false` once
the attempt has finished. -/
theorem c9_saving_flag (data : OcrResult) (probe : Except String ProbeMap)
    (userConfirms : Bool) :
    ∀ s ∈ handleSaveTrace data probe userConfirms,
      ((s.1 = SavePhase.probe ∨ s.1 = SavePhase.commit) → s.2 = true) ∧
      (s.1 = SavePhase.awaitOverwrite → s.2 = false) ∧
      (s.1 = SavePhase.finished → s.2 = false) := by
  intro s hs
  unfold handleSaveTrace at hs
  split at hs
  · fin_cases hs <;> decide
  · split at hs
    · fin_cases hs <;> decide
    · cases probe with
      | ok m =>
        dsimp only at hs
        split at hs
        · split at hs
          · fin_cases hs <;> decide
          · fin_cases hs <;> decide
        · fin_cases hs <;> decide
      | error msg =>
        dsimp only at hs
        fin_cases hs <;> decide

theorem c9_saving_flag_witness :
    ((SavePhase.probe, true) ∈
      handleSaveTrace sampleReport (Except.ok []) true) ∧
    ((((SavePhase.probe, true) : SavePhase × Bool).1 = SavePhase.probe ∨
        ((SavePhase.probe, true) : SavePhase × Bool).1 = SavePhase.commit) →
      ((SavePhase.probe, true) : SavePhase × Bool).2 = true) ∧
    (((SavePhase.probe, true) : SavePhase × Bool).1 = SavePhase.awaitOverwrite →
      ((SavePhase.probe, true) : SavePhase × Bool).2 = false) ∧
    (((SavePhase.probe, true) : SavePhase × Bool).1 = SavePhase.finished →
      ((SavePhase.probe, true) : SavePhase × Bool).2 = false) :=
  ⟨by decide,
    c9_saving_flag sampleReport (Except.ok []) true
      (SavePhase.probe, true) (by decide)⟩

/-- C8: `formatTimeInput` is idempotent, and the already-formatted value
`"17:30"` round-trips unchanged. -/
theorem c8_formatTimeInput_idempotent :
    (∀ x : String, formatTimeInput (formatTimeInput x) = formatTimeInput x) ∧
    formatTimeInput "17:30" = "17:30" := by
  refine ⟨fun x => ?_, by decide⟩
  show String.mk (formatTimeDigits ((String.mk
      (formatTimeDigits (x.data.filter Char.isDigit))).data.filter Char.isDigit)) =
    String.mk (formatTimeDigits (x.data.filter Char.isDigit))
  have h : ∀ c ∈ x.data.filter Char.isDigit, c.isDigit = true :=
    fun c hc => (List.mem_filter.mp hc).2
  exact congrArg String.mk (formatTimeDigits_refilter _ h)
